import Mathlib

/-!
# Verification of the Pokewatch availability watcher (`src/watch_amazon.py`)

Shallow embedding of the watcher's pure logic. HTML parsing (BeautifulSoup)
is external: a fetched page is modelled by the `Html` record holding the
query results the extractors inspect (element presence and raw element
text). Network and filesystem effects are modelled by explicit outcome
values (`FetchOutcome`, `FileRead`, `WriteOutcome`) and by the Boolean
`notifyOk` oracle saying whether the webhook POST would succeed.

Modelling notes, each marked at its definition:
* Python `str.strip` / `get_text(strip=True)` is modelled by `trimChars`
  over ASCII whitespace; Python also strips rarer Unicode whitespace.
* Python `ch.isdigit()` is modelled by `Char.isDigit` (ASCII digits);
  Python also accepts some non-ASCII digit characters.
* Prices are rationals (`ℚ`): the claims concern parse/fallback logic,
  not binary floating-point rounding.
-/

namespace Pokewatch

/-- The parse results the extractors read off a fetched product page:
each field is the text (or attribute value, or presence) of the element
the corresponding CSS selector in `watch_amazon.py` finds, `none` when no
element matches. -/
structure Html where
  /-- text of the `#productTitle` element -/
  productTitle : Option String
  /-- whether `#imgTagWrapperId img` or `#landingImage` matched -/
  imgPresent : Bool
  /-- the matched image element's `data-old-hires` attribute -/
  imgOldHires : Option String
  /-- the matched image element's `src` attribute -/
  imgSrc : Option String
  /-- whether `#add-to-cart-button` matched -/
  addToCartBtn : Bool
  /-- text of the `#availability` element -/
  availability : Option String
  /-- text of the merchant-info `.offer-display-feature-text-message` element -/
  merchantInfo : Option String
  /-- text of the fulfiller-info `.offer-display-feature-text-message` element -/
  fulfillerInfo : Option String
  /-- text of the `.a-price .a-offscreen` element -/
  priceText : Option String
deriving DecidableEq

/-- Python `str.strip()` on the element text (ASCII whitespace). -/
def trimChars (s : String) : String :=
  String.mk
    (((s.data.dropWhile Char.isWhitespace).reverse.dropWhile Char.isWhitespace).reverse)

/-- `elt.get_text(strip=True) if elt else ""`: the stripped text of an
optional element, the empty string when the element is absent. -/
def stripText : Option String → String
  | some s => trimChars s
  | none => ""

/-- `get_title`: stripped `#productTitle` text, `None` when absent. -/
def get_title (h : Html) : Option String :=
  h.productTitle.map trimChars

/-- Python `a or b` on optional strings: `b` whenever `a` is `None` or empty. -/
def pyOr (a b : Option String) : Option String :=
  match a with
  | some s => if s = "" then b else some s
  | none => b

/-- `get_image_url`: `img.get("data-old-hires") or img.get("src")` when an
image element matched. -/
def get_image_url (h : Html) : Option String :=
  if h.imgPresent then pyOr h.imgOldHires h.imgSrc else none

/-- `startsWith needle hay`: `needle` is a prefix of `hay`. -/
def startsWith : List Char → List Char → Bool
  | [], _ => true
  | _ :: _, [] => false
  | a :: as, b :: bs => a == b && startsWith as bs

/-- `containsSeq needle hay`: `needle` occurs contiguously in `hay`
(Python `needle in hay` on strings). -/
def containsSeq (needle : List Char) : List Char → Bool
  | [] => decide (needle = [])
  | b :: bs => startsWith needle (b :: bs) || containsSeq needle bs

/-- `est_disponible`: the add-to-cart button is present, or the stripped
`#availability` text contains the phrase `"En stock"`. -/
def est_disponible (h : Html) : Bool :=
  h.addToCartBtn || containsSeq "En stock".data (stripText h.availability).data

/-- `vendu_par_amazon`: some nonempty stripped merchant/fulfiller text equals
exactly `"Amazon"` (`any(txt == "Amazon" for txt in (v_txt, e_txt) if txt)`). -/
def vendu_par_amazon (h : Html) : Bool :=
  decide ((stripText h.merchantInfo ≠ "" ∧ stripText h.merchantInfo = "Amazon")
      ∨ (stripText h.fulfillerInfo ≠ "" ∧ stripText h.fulfillerInfo = "Amazon"))

/-- Value of a string of ASCII digits (most significant first). -/
def digitsToNat (cs : List Char) : ℕ :=
  cs.foldl (fun a c => 10 * a + (c.toNat - 48)) 0

/-- Python `float()` restricted to its possible inputs here: strings over
ASCII digits and `'.'` (the cleaning pipeline below removes everything
else). Succeeds exactly when the string has at most one dot and at least
one digit, yielding the denoted decimal as a rational.
`ValueError` is the `none` case. -/
def pyFloat (cs : List Char) : Option ℚ :=
  if ¬ cs.all (fun c => c.isDigit || c == '.') then none
  else if cs.count '.' = 0 then
    if cs = [] then none else some (digitsToNat cs)
  else if cs.count '.' = 1 then
    if cs = ['.'] then none
    else
      some ((digitsToNat (cs.takeWhile (fun c => c != '.')) : ℚ)
        + (digitsToNat ((cs.dropWhile (fun c => c != '.')).drop 1) : ℚ)
          / (10 : ℚ) ^ ((cs.dropWhile (fun c => c != '.')).drop 1).length)
  else none

/-- The price-text cleaning of `get_price`: strip, drop narrow no-break
spaces and spaces, keep digits and `'.'`/`','`, then turn `','` into `'.'`
(Python: `.replace` twice, a digit/`.,` comprehension, `.replace(',', '.')`;
the replaced needles are single characters, so character maps are exact). -/
def cleanPrice (t : String) : List Char :=
  ((((trimChars t).data.filter (fun c => !(c == '\u202F' || c == ' '))).filter
      (fun c => c.isDigit || c == '.' || c == ',')).map
    (fun c => if c = ',' then '.' else c))

/-- `get_price`: parse the cleaned `.a-price .a-offscreen` text, `None` on
an absent or empty element or on a `ValueError` (which `get_price` catches
and logs). -/
def get_price (h : Html) : Option ℚ :=
  match h.priceText with
  | some t => if t = "" then none else pyFloat (cleanPrice t)
  | none => none

/-- The embed object `notifier_discord` builds. `thumbnail` holds the inner
`url` of the `{"url": image_url}` object, `none` for the JSON `null`. -/
structure DiscordEmbed where
  title : String
  url : String
  description : String
  thumbnail : Option String
deriving DecidableEq

/-- The JSON payload `notifier_discord` POSTs: `{"embeds": [embed]}`. -/
structure DiscordPayload where
  embeds : List DiscordEmbed
deriving DecidableEq

/-- Python `f"\x7bprice:.2f\x7d"` on the rational price model: the price in
cents (rounded half-up; Python rounds the underlying binary double to
nearest even, which no claim distinguishes), rendered with two decimals. -/
def format2f (q : ℚ) : String :=
  String.mk (Nat.toDigits 10 ((⌊q * 100 + 1 / 2⌋).toNat / 100)) ++ "." ++
    (if (⌊q * 100 + 1 / 2⌋).toNat % 100 < 10 then "0" else "") ++
    String.mk (Nat.toDigits 10 ((⌊q * 100 + 1 / 2⌋).toNat % 100))

/-- The `embed` dict of `notifier_discord`: title falls back to
`"Produit \x7basin\x7d"` when absent or empty (Python `or` truthiness),
the canonical product URL, a description holding the formatted price or the
`"non lu"` fallback, and a thumbnail only for a truthy image URL. -/
def notifier_embed (asin : String) (title image_url : Option String)
    (price : Option ℚ) : DiscordEmbed where
  title :=
    match title with
    | some t => if t = "" then "Produit " ++ asin else t
    | none => "Produit " ++ asin
  url := "https://www.amazon.fr/dp/" ++ asin
  description :=
    "Vendu/expédié par Amazon\nPrix : " ++
      (match price with
       | some p => format2f p ++ " €"
       | none => "non lu")
  thumbnail :=
    match image_url with
    | some u => if u = "" then none else some u
    | none => none

/-- The payload `notifier_discord` POSTs to the webhook URL. Whether the
POST itself succeeds is the `notifyOk` oracle of `StepInput`. -/
def notifier_discord (asin : String) (title image_url : Option String)
    (price : Option ℚ) : DiscordPayload :=
  ⟨[notifier_embed asin title image_url price]⟩

/-! ## State store

The `previous` dict and `state.json`. A Python dict over string keys is an
insertion-ordered association list with unique keys; `dictSet` overwrites in
place or appends. -/

/-- The in-memory availability state: Python dict, identifier to combined
boolean. -/
abbrev StateMap := List (String × Bool)

/-- `previous.get(asin)`: `none` models Python `None` for a missing key. -/
def dictGet : StateMap → String → Option Bool
  | [], _ => none
  | (k, v) :: rest, key => if key = k then some v else dictGet rest key

/-- `previous.get(asin, False)`. -/
def dictGetD (m : StateMap) (key : String) (d : Bool) : Bool :=
  (dictGet m key).getD d

/-- `previous[asin] = current`: overwrite the existing entry or append. -/
def dictSet : StateMap → String → Bool → StateMap
  | [], key, val => [(key, val)]
  | (k, v) :: rest, key, val =>
    if key = k then (k, val) :: rest else (k, v) :: dictSet rest key val

/-- What reading `state.json` can yield: no file, a file `json.load`
raises on, or a parsed mapping (the state files the program itself writes
are JSON objects of booleans). -/
inductive FileRead where
  | absent
  | corrupt
  | parsed (m : StateMap)

/-- `load_state`: the parsed mapping, or the empty mapping when the file is
absent or unreadable (the error is logged, never re-raised). -/
def load_state : FileRead → StateMap
  | .absent => []
  | .corrupt => []
  | .parsed m => m

/-- Whether the `open`/`json.dump` in `save_state` succeeds. -/
inductive WriteOutcome where
  | ok
  | ioError

/-- `save_state`: returns the file content after the call, given the prior
content. On success the whole mapping is written; on failure the error is
logged and swallowed (the caller never sees an exception). -/
def save_state (st : StateMap) (file : Option StateMap) : WriteOutcome → Option StateMap
  | .ok => some st
  | .ioError => file

/-! ## Poll loop -/

/-- What `fetch_html asin` does in a given cycle: raise (timeout, transport
error, or `raise_for_status`), or return the page. -/
inductive FetchOutcome where
  | fetchFail
  | page (h : Html)
deriving DecidableEq

/-- One identifier's environment for one cycle: the fetch outcome and
whether the webhook POST in `notifier_discord` would succeed if attempted. -/
structure StepInput where
  asin : String
  fetch : FetchOutcome
  notifyOk : Bool
deriving DecidableEq

/-- Result of the `try` block for one identifier. -/
structure StepResult where
  /-- `previous` after the block (and its `except` handlers) -/
  state : StateMap
  /-- whether this block set `changed = True` -/
  changed : Bool
  /-- whether `notifier_discord` was invoked (successfully or not) -/
  invoked : Bool
deriving DecidableEq

/-- `dispo and vendeur`. -/
def combinedOf (h : Html) : Bool :=
  est_disponible h && vendu_par_amazon h

/-- The `if previous.get(asin) != current` update (Python `None != current`
always holds, so an absent key is always written). -/
def updateState (prev : StateMap) (asin : String) (current inv : Bool) : StepResult :=
  if dictGet prev asin = some current then ⟨prev, false, inv⟩
  else ⟨dictSet prev asin current, true, inv⟩

/-- The `try`/`except` body of `main` for one identifier: on a fetch
failure, log and leave everything unchanged; otherwise notify on
`current and not previous.get(asin, False)` — a failing POST raises out of
the `try`, skipping the state update — then update the state. -/
def processAsin (prev : StateMap) (inp : StepInput) : StepResult :=
  match inp.fetch with
  | .fetchFail => ⟨prev, false, false⟩
  | .page h =>
    if combinedOf h && !(dictGetD prev inp.asin false) then
      if inp.notifyOk then updateState prev inp.asin (combinedOf h) true
      else ⟨prev, false, true⟩
    else updateState prev inp.asin (combinedOf h) false

/-- Accumulated result of one `for asin in ASINS` pass. -/
structure CycleResult where
  state : StateMap
  /-- the cycle's `changed` flag -/
  changed : Bool
  /-- the identifiers `notifier_discord` was invoked for, in order -/
  notified : List String
deriving DecidableEq

/-- The `for asin in ASINS` loop from a given accumulated state. -/
def runCycleFrom (acc : CycleResult) : List StepInput → CycleResult
  | [] => acc
  | inp :: rest =>
    runCycleFrom
      ⟨(processAsin acc.state inp).state,
        acc.changed || (processAsin acc.state inp).changed,
        acc.notified ++ (if (processAsin acc.state inp).invoked then [inp.asin] else [])⟩
      rest

/-- One full cycle: `changed = False`, then the pass over all identifiers. -/
def runCycle (prev : StateMap) (inputs : List StepInput) : CycleResult :=
  runCycleFrom ⟨prev, false, []⟩ inputs

/-- The tail of a cycle iteration of `main`: `if changed: save_state(previous)`.
Returns the in-memory state, the file content after the iteration, and the
notified identifiers. -/
def loopIteration (prev : StateMap) (file : Option StateMap)
    (inputs : List StepInput) (w : WriteOutcome) :
    StateMap × Option StateMap × List String :=
  ((runCycle prev inputs).state,
    (if (runCycle prev inputs).changed then
      save_state (runCycle prev inputs).state file w
     else file),
    (runCycle prev inputs).notified)

/-- The in-memory state after a sequence of cycles of the `while True` loop. -/
def runCycles (prev : StateMap) : List (List StepInput) → StateMap
  | [] => prev
  | c :: cs => runCycles (runCycle prev c).state cs

/-- Whether the `try` block for this identifier raises (and is caught):
either the fetch fails, or a notification is attempted (False→True edge)
and the POST fails. -/
def stepRaisesB (prev : StateMap) (inp : StepInput) : Bool :=
  match inp.fetch with
  | .fetchFail => true
  | .page h => combinedOf h && !(dictGetD prev inp.asin false) && !inp.notifyOk

/-- A step is a no-op against `st`: its page (when the fetch succeeds) shows
exactly the combined value already stored for its identifier. -/
def SettledAt (st : StateMap) (inp : StepInput) : Prop :=
  match inp.fetch with
  | .fetchFail => True
  | .page h => dictGet st inp.asin = some (combinedOf h)

/-! ## Concrete pages for witnesses and counterexamples -/

/-- An in-stock page sold by Amazon: add-to-cart button present,
`"En stock"` availability, merchant text exactly `"Amazon"`. -/
def inStockHtml : Html where
  productTitle := some "PlayStation 5"
  imgPresent := true
  imgOldHires := some "https://m.media/img-hi.jpg"
  imgSrc := some "https://m.media/img.jpg"
  addToCartBtn := true
  availability := some "En stock"
  merchantInfo := some "Amazon"
  fulfillerInfo := some "Amazon"
  priceText := some "1 234,56 €"

/-- An in-stock page sold by a third party whose name merely contains
`"Amazon"`. -/
def marketplaceHtml : Html :=
  { inStockHtml with merchantInfo := some "Amazon Marketplace Seller"
                     fulfillerInfo := none }

/-- A page whose price text cleans to `"1.2.3.4"`, which `float` rejects. -/
def badPriceHtml : Html :=
  { inStockHtml with priceText := some "1.2.3,4" }

/-! ## Association-list lemmas for the state dict -/

theorem dictGet_dictSet (m : StateMap) (k : String) (v : Bool) (k' : String) :
    dictGet (dictSet m k v) k' = if k' = k then some v else dictGet m k' := by
  induction m with
  | nil => simp [dictSet, dictGet]
  | cons p rest ih =>
    obtain ⟨a, b⟩ := p
    by_cases hka : k = a
    · subst hka
      by_cases h1 : k' = k <;> simp [dictSet, dictGet, h1]
    · by_cases h1 : k' = a <;> by_cases h2 : k' = k <;>
        simp_all [dictSet, dictGet]

/-! ## Step lemmas -/

/-- Processing one identifier never touches another identifier's entry. -/
theorem processAsin_state_ne (prev : StateMap) (inp : StepInput) (k : String)
    (hk : k ≠ inp.asin) :
    dictGet (processAsin prev inp).state k = dictGet prev k := by
  obtain ⟨a, f, n⟩ := inp
  cases f with
  | fetchFail => rfl
  | page h =>
    simp only [processAsin, updateState]
    split <;> (try split) <;> (try split) <;> simp_all [dictGet_dictSet]

/-- After an exception-free successful fetch, the identifier's entry holds
the page's combined value. -/
theorem processAsin_clean_get (prev : StateMap) (a : String) (h : Html) :
    dictGet (processAsin prev ⟨a, .page h, true⟩).state a = some (combinedOf h) := by
  simp only [processAsin, updateState]
  split <;> (try split) <;> (try split) <;> simp_all [dictGet_dictSet]

/-- A page whose combined value is already stored is a complete no-op:
no notification, no change, no state write. -/
theorem processAsin_settled (prev : StateMap) (a : String) (h : Html) (n : Bool)
    (hs : dictGet prev a = some (combinedOf h)) :
    processAsin prev ⟨a, .page h, n⟩ = ⟨prev, false, false⟩ := by
  have hd : dictGetD prev a false = combinedOf h := by
    simp [dictGetD, hs]
  simp only [processAsin, updateState, hd]
  cases hc : combinedOf h <;> simp_all

/-- A step whose `try` block raises leaves the state untouched and does not
set `changed`. -/
theorem processAsin_raises (prev : StateMap) (inp : StepInput)
    (hr : stepRaisesB prev inp = true) :
    (processAsin prev inp).state = prev ∧ (processAsin prev inp).changed = false := by
  obtain ⟨a, f, n⟩ := inp
  cases f with
  | fetchFail => exact ⟨rfl, rfl⟩
  | page h =>
    simp only [stepRaisesB, Bool.and_eq_true, Bool.not_eq_true] at hr
    obtain ⟨⟨h1, h2⟩, h3⟩ := hr
    have hn : n = false := by cases n <;> simp_all
    simp [processAsin, h1, h2, hn]

/-! ## Cycle lemmas -/

theorem runCycleFrom_append (xs ys : List StepInput) (acc : CycleResult) :
    runCycleFrom acc (xs ++ ys) = runCycleFrom (runCycleFrom acc xs) ys := by
  induction xs generalizing acc with
  | nil => rfl
  | cons inp rest ih =>
    simp only [List.cons_append, runCycleFrom]
    exact ih _

/-- The `changed` flag and notified list are pure accumulators: a pass from
any accumulator is the pass from a fresh one, with the flag or-ed in and the
list appended. -/
theorem runCycleFrom_norm (xs : List StepInput) (acc : CycleResult) :
    runCycleFrom acc xs =
      ⟨(runCycleFrom ⟨acc.state, false, []⟩ xs).state,
        acc.changed || (runCycleFrom ⟨acc.state, false, []⟩ xs).changed,
        acc.notified ++ (runCycleFrom ⟨acc.state, false, []⟩ xs).notified⟩ := by
  induction xs generalizing acc with
  | nil => simp [runCycleFrom]
  | cons inp rest ih =>
    simp only [runCycleFrom]
    rw [ih ⟨(processAsin acc.state inp).state,
          acc.changed || (processAsin acc.state inp).changed,
          acc.notified ++ (if (processAsin acc.state inp).invoked = true
            then [inp.asin] else [])⟩,
        ih ⟨(processAsin acc.state inp).state,
          false || (processAsin acc.state inp).changed,
          [] ++ (if (processAsin acc.state inp).invoked = true
            then [inp.asin] else [])⟩]
    simp [Bool.or_assoc]

theorem runCycle_append (prev : StateMap) (xs ys : List StepInput) :
    runCycle prev (xs ++ ys) = runCycleFrom (runCycle prev xs) ys :=
  runCycleFrom_append xs ys _

/-- A pass over steps that are all settled no-ops returns the accumulator. -/
theorem runCycleFrom_settled (xs : List StepInput) (acc : CycleResult)
    (hs : ∀ inp ∈ xs, SettledAt acc.state inp) :
    runCycleFrom acc xs = acc := by
  induction xs with
  | nil => rfl
  | cons inp rest ih =>
    have h0 : SettledAt acc.state inp := hs inp (List.mem_cons_self inp rest)
    have hstep : processAsin acc.state inp = ⟨acc.state, false, false⟩ := by
      obtain ⟨a, f, n⟩ := inp
      cases f with
      | fetchFail => rfl
      | page h => exact processAsin_settled _ _ _ _ h0
    simp only [runCycleFrom, hstep]
    have hacc : (⟨acc.state, acc.changed || false,
        acc.notified ++ (if false = true then [inp.asin] else [])⟩ : CycleResult) = acc := by
      simp
    rw [hacc]
    exact ih fun inp hi => hs inp (List.mem_cons_of_mem _ hi)

/-- A pass never touches entries of identifiers it does not process. -/
theorem runCycleFrom_state_ne (xs : List StepInput) (acc : CycleResult) (k : String)
    (hk : k ∉ xs.map StepInput.asin) :
    dictGet (runCycleFrom acc xs).state k = dictGet acc.state k := by
  induction xs generalizing acc with
  | nil => rfl
  | cons inp rest ih =>
    simp only [List.map_cons, List.mem_cons, not_or] at hk
    simp only [runCycleFrom]
    rw [ih _ hk.2]
    exact processAsin_state_ne _ _ _ hk.1

/-- After a pass with distinct identifiers in which every attempted webhook
POST succeeds, every step is settled against the resulting state. -/
theorem runCycleFrom_clean_settles (xs : List StepInput) (acc : CycleResult)
    (hok : ∀ inp ∈ xs, inp.notifyOk = true)
    (hnd : (xs.map StepInput.asin).Nodup) :
    ∀ inp ∈ xs, SettledAt (runCycleFrom acc xs).state inp := by
  induction xs generalizing acc with
  | nil => intro inp hi; cases hi
  | cons first rest ih =>
    intro inp hi
    simp only [List.map_cons, List.nodup_cons] at hnd
    rcases List.mem_cons.mp hi with hi | hi
    · subst hi
      obtain ⟨a, f, n⟩ := inp
      cases f with
      | fetchFail => trivial
      | page h =>
        show dictGet (runCycleFrom _ (_ :: rest)).state a = some (combinedOf h)
        simp only [runCycleFrom]
        rw [runCycleFrom_state_ne rest _ a hnd.1]
        have hn : n = true := hok _ (List.mem_cons_self _ _)
        subst hn
        exact processAsin_clean_get acc.state a h
    · exact ih _ (fun i hi2 => hok i (List.mem_cons_of_mem _ hi2)) hnd.2 inp hi

/-- One step can only keep or add its own identifier's entry, never drop a
key. -/
theorem dictGet_isSome_processAsin (prev : StateMap) (inp : StepInput) (k : String) :
    ((dictGet prev k).isSome = true →
      (dictGet (processAsin prev inp).state k).isSome = true)
      ∧ ((dictGet (processAsin prev inp).state k).isSome = true →
          (dictGet prev k).isSome = true ∨ k = inp.asin) := by
  obtain ⟨a, f, n⟩ := inp
  cases f with
  | fetchFail => exact ⟨fun hx => hx, fun hx => Or.inl hx⟩
  | page h =>
    simp only [processAsin, updateState]
    split <;> (try split) <;> (try split) <;>
      constructor <;> simp_all [dictGet_dictSet] <;>
      by_cases hk : k = a <;> simp_all

/-- A pass keeps every key and adds only processed identifiers. -/
theorem dictGet_isSome_runCycleFrom (xs : List StepInput) (acc : CycleResult)
    (k : String) :
    ((dictGet acc.state k).isSome = true →
      (dictGet (runCycleFrom acc xs).state k).isSome = true)
      ∧ ((dictGet (runCycleFrom acc xs).state k).isSome = true →
          (dictGet acc.state k).isSome = true ∨ ∃ inp ∈ xs, inp.asin = k) := by
  induction xs generalizing acc with
  | nil => exact ⟨fun hx => hx, fun hx => Or.inl hx⟩
  | cons inp rest ih =>
    constructor
    · intro hx
      simp only [runCycleFrom]
      exact (ih _).1 ((dictGet_isSome_processAsin acc.state inp k).1 hx)
    · intro hx
      simp only [runCycleFrom] at hx
      rcases (ih _).2 hx with hy | ⟨i, hi, hik⟩
      · rcases (dictGet_isSome_processAsin acc.state inp k).2 hy with hz | hz
        · exact Or.inl hz
        · exact Or.inr ⟨inp, List.mem_cons_self _ _, hz.symm⟩
      · exact Or.inr ⟨i, List.mem_cons_of_mem _ hi, hik⟩

/-! ## The claims -/

/-- C1: for a tracked identifier whose fetch and extraction succeed in a
cycle, `notifier_discord` is invoked in that step exactly when the newly
computed combined value (`est_disponible` and `vendu_par_amazon`) is true
and the stored previous value for that identifier is false or absent. -/
theorem notify_iff_edge (prev : StateMap) (asin : String) (h : Html) (nok : Bool) :
    (processAsin prev ⟨asin, .page h, nok⟩).invoked = true ↔
      ((est_disponible h && vendu_par_amazon h) = true
        ∧ dictGetD prev asin false = false) := by
  show (if combinedOf h && !(dictGetD prev asin false) then
          if nok then updateState prev asin (combinedOf h) true
          else ⟨prev, false, true⟩
        else updateState prev asin (combinedOf h) false).invoked = true ↔ _
  cases hc : combinedOf h <;> cases hp : dictGetD prev asin false <;>
    cases nok <;>
    simp_all [combinedOf, updateState] <;>
    split <;> simp_all

/-- C2, counterexample: with the state loaded from an absent file (empty
mapping), an identifier whose first observed page is in stock and sold by
Amazon DOES trigger a notification on that very first cycle, contrary to
the claim. -/
theorem cold_start_counterexample :
    (processAsin (load_state .absent) ⟨"X1", .page inStockHtml, true⟩).invoked = true := by
  decide

/-- C2, amended: with no persisted state file, a tracked identifier whose
very first observed combined value is true does trigger a notification on
that first cycle — `previous.get(asin, False)` treats an absent record as
false, so the cold start behaves as a False→True edge. -/
theorem cold_start_notifies (asin : String) (h : Html) (nok : Bool)
    (hcur : (est_disponible h && vendu_par_amazon h) = true) :
    (processAsin (load_state .absent) ⟨asin, .page h, nok⟩).invoked = true := by
  show (if combinedOf h && !(dictGetD [] asin false) then
          if nok then updateState [] asin (combinedOf h) true
          else ⟨[], false, true⟩
        else updateState [] asin (combinedOf h) false).invoked = true
  simp [combinedOf, hcur, dictGetD, dictGet]
  cases nok <;> simp [updateState, dictGet]

/-- C2, witness for the amended theorem at a concrete in-stock page. -/
theorem cold_start_notifies_witness :
    (processAsin (load_state .absent) ⟨"X2", .page inStockHtml, true⟩).invoked = true :=
  cold_start_notifies "X2" inStockHtml true (by decide)

/-- C3, counterexample: after a failed notification on a False→True edge the
stored value does NOT become true (the exception skips the update), and the
next cycle's unchanged in-stock page DOES produce a new notification
attempt — contrary to the claim that the store still becomes true and no
attempt happens before the next genuine edge. -/
theorem notify_failure_counterexample :
    (processAsin [] ⟨"X1", .page inStockHtml, false⟩).state = []
      ∧ (processAsin (processAsin [] ⟨"X1", .page inStockHtml, false⟩).state
          ⟨"X1", .page inStockHtml, true⟩).invoked = true := by
  decide

/-- C3, amended: when the notifier fails on a False→True edge, the failure
is not retried within the same cycle (exactly one invocation is recorded for
that identifier in the pass), but the exception skips the state update, so
the stored value stays as it was and an unchanged in-stock page in the next
cycle produces a fresh notification attempt. -/
theorem notify_failure_no_update (prev : StateMap) (asin : String) (h : Html)
    (hcur : (est_disponible h && vendu_par_amazon h) = true)
    (hprev : dictGetD prev asin false = false) :
    processAsin prev ⟨asin, .page h, false⟩ = ⟨prev, false, true⟩
      ∧ (runCycle prev [⟨asin, .page h, false⟩]).notified = [asin]
      ∧ (processAsin prev ⟨asin, .page h, true⟩).invoked = true := by
  have hcc : combinedOf h = true := hcur
  have h1 : processAsin prev ⟨asin, .page h, false⟩ = ⟨prev, false, true⟩ := by
    simp [processAsin, hcc, hprev]
  refine ⟨h1, ?_, ?_⟩
  · show (runCycleFrom ⟨prev, false, []⟩ [⟨asin, .page h, false⟩]).notified = [asin]
    simp [runCycleFrom, h1]
  · by_cases hg : dictGet prev asin = some true <;>
      simp [processAsin, updateState, hcc, hprev, hg]

/-- C3, witness for the amended theorem: identifier stored as false, page in
stock, POST fails. -/
theorem notify_failure_no_update_witness :
    processAsin [("X1", false)] ⟨"X1", .page inStockHtml, false⟩
        = ⟨[("X1", false)], false, true⟩
      ∧ (runCycle [("X1", false)] [⟨"X1", .page inStockHtml, false⟩]).notified = ["X1"]
      ∧ (processAsin [("X1", false)] ⟨"X1", .page inStockHtml, true⟩).invoked = true :=
  notify_failure_no_update [("X1", false)] "X1" inStockHtml (by decide) (by decide)

/-- C4: `vendu_par_amazon` is true exactly when the trimmed merchant-info or
fulfiller-info text equals exactly `"Amazon"`; in particular merchant text
exactly `"Amazon"` gives true and the strict superstring
`"Amazon Marketplace Seller"` gives false. -/
theorem sold_by_exact_match :
    (∀ h : Html, vendu_par_amazon h = true ↔
        (stripText h.merchantInfo = "Amazon" ∨ stripText h.fulfillerInfo = "Amazon"))
      ∧ vendu_par_amazon inStockHtml = true
      ∧ vendu_par_amazon marketplaceHtml = false := by
  refine ⟨fun h => ?_, by decide, by decide⟩
  simp only [vendu_par_amazon, decide_eq_true_eq]
  constructor
  · rintro (⟨-, hv⟩ | ⟨-, he⟩)
    · exact Or.inl hv
    · exact Or.inr he
  · rintro (hv | he)
    · exact Or.inl ⟨by rw [hv]; decide, hv⟩
    · exact Or.inr ⟨by rw [he]; decide, he⟩

/-- C5: when a full cycle runs with pairwise-distinct identifiers and every
attempted webhook POST succeeding, a second cycle over the same inputs
(same identifiers, unchanged markup, hence the same fetch outcomes)
produces no notifications and leaves `changed` false, so `save_state` is
not called and the state is unchanged. -/
theorem cycle_idempotent (prev : StateMap) (inputs : List StepInput)
    (hok : ∀ inp ∈ inputs, inp.notifyOk = true)
    (hnd : (inputs.map StepInput.asin).Nodup) :
    runCycle (runCycle prev inputs).state inputs
      = ⟨(runCycle prev inputs).state, false, []⟩ := by
  apply runCycleFrom_settled
  intro inp hi
  exact runCycleFrom_clean_settles inputs ⟨prev, false, []⟩ hok hnd inp hi

/-- C5, witness: one in-stock identifier, empty initial state. -/
theorem cycle_idempotent_witness :
    runCycle (runCycle [] [⟨"X1", .page inStockHtml, true⟩]).state
        [⟨"X1", .page inStockHtml, true⟩]
      = ⟨(runCycle [] [⟨"X1", .page inStockHtml, true⟩]).state, false, []⟩ :=
  cycle_idempotent [] [⟨"X1", .page inStockHtml, true⟩]
    (by intro inp hi; simp at hi; rw [hi]) (by simp)

/-- C6: a price element reading `"1 234,56 €"` parses to the decimal
1234.56; and whenever the cleaned text fails to parse as a number,
`get_price` returns `none` (it is a total function: the `ValueError` is
caught, never propagated), as on the concrete `"1.2.3,4"` text. -/
theorem price_parse :
    get_price inStockHtml = some (123456 / 100 : ℚ)
      ∧ (∀ (h : Html) (t : String), h.priceText = some t →
          pyFloat (cleanPrice t) = none → get_price h = none)
      ∧ get_price badPriceHtml = none := by
  refine ⟨?_, fun h t hpt hfail => ?_, by decide⟩
  · have he : get_price inStockHtml
        = some ((digitsToNat ['1', '2', '3', '4'] : ℚ)
            + (digitsToNat ['5', '6'] : ℚ)
              / (10 : ℚ) ^ (['5', '6'] : List Char).length) := rfl
    have d1 : digitsToNat ['1', '2', '3', '4'] = 1234 := by decide
    have d2 : digitsToNat ['5', '6'] = 56 := by decide
    rw [he, d1, d2]
    norm_num
  · simp only [get_price, hpt]
    split
    · rfl
    · exact hfail

/-- C7: a step whose `try` block raises (fetch failure, or notifier failure)
leaves the cycle's state and `changed` flag exactly as if the identifier had
been skipped, so every remaining identifier is still processed with the same
results and the loop continues; for a fetch failure the whole cycle result
(notifications included) equals the cycle without that step. -/
theorem failure_isolated (prev : StateMap) (pre post : List StepInput)
    (inp : StepInput)
    (hraise : stepRaisesB (runCycle prev pre).state inp = true) :
    ((runCycle prev (pre ++ inp :: post)).state
        = (runCycle prev (pre ++ post)).state
      ∧ (runCycle prev (pre ++ inp :: post)).changed
        = (runCycle prev (pre ++ post)).changed)
      ∧ (inp.fetch = .fetchFail →
          runCycle prev (pre ++ inp :: post) = runCycle prev (pre ++ post)) := by
  have hs := (processAsin_raises (runCycle prev pre).state inp hraise).1
  have hc := (processAsin_raises (runCycle prev pre).state inp hraise).2
  rw [runCycle_append, runCycle_append]
  have hstep1 : runCycleFrom (runCycle prev pre) (inp :: post)
      = runCycleFrom ⟨(runCycle prev pre).state, (runCycle prev pre).changed || false,
          (runCycle prev pre).notified
            ++ (if (processAsin (runCycle prev pre).state inp).invoked = true
                then [inp.asin] else [])⟩ post := by
    simp only [runCycleFrom, hs, hc]
  constructor
  · rw [hstep1, runCycleFrom_norm post, runCycleFrom_norm post (runCycle prev pre)]
    simp
  · intro hf
    have hstep : processAsin (runCycle prev pre).state inp
        = ⟨(runCycle prev pre).state, false, false⟩ := by
      obtain ⟨a, f, n⟩ := inp
      cases hf
      rfl
    rw [hstep1, hstep]
    have hacc : (⟨(runCycle prev pre).state, (runCycle prev pre).changed || false,
        (runCycle prev pre).notified
          ++ (if (⟨(runCycle prev pre).state, false, false⟩ : StepResult).invoked = true
              then [inp.asin] else [])⟩ : CycleResult) = runCycle prev pre := by
      simp
    rw [hacc]

/-- C7, witness: a fetch failure for `"X1"` followed by a successful step
for `"X2"`, from empty state. -/
theorem failure_isolated_witness :
    ((runCycle []
          ([] ++ ⟨"X1", .fetchFail, true⟩ :: [⟨"X2", .page inStockHtml, true⟩])).state
        = (runCycle [] ([] ++ [⟨"X2", .page inStockHtml, true⟩])).state
      ∧ (runCycle []
            ([] ++ ⟨"X1", .fetchFail, true⟩ :: [⟨"X2", .page inStockHtml, true⟩])).changed
        = (runCycle [] ([] ++ [⟨"X2", .page inStockHtml, true⟩])).changed)
      ∧ ((⟨"X1", .fetchFail, true⟩ : StepInput).fetch = .fetchFail →
          runCycle []
              ([] ++ ⟨"X1", .fetchFail, true⟩ :: [⟨"X2", .page inStockHtml, true⟩])
            = runCycle [] ([] ++ [⟨"X2", .page inStockHtml, true⟩])) :=
  failure_isolated [] [] [⟨"X2", .page inStockHtml, true⟩]
    ⟨"X1", .fetchFail, true⟩ (by decide)

/-- C8: `load_state` yields the empty mapping on an absent or unparseable
file and the parsed mapping otherwise, raising nothing (it is total); and a
failed `save_state` is swallowed, so the loop iteration's in-memory state
and notifications do not depend on the write outcome. -/
theorem state_store_contract :
    (load_state .absent = [] ∧ load_state .corrupt = []
      ∧ ∀ m, load_state (.parsed m) = m)
      ∧ (∀ (prev : StateMap) (file : Option StateMap) (inputs : List StepInput)
          (w : WriteOutcome),
          (loopIteration prev file inputs w).1 = (runCycle prev inputs).state
            ∧ (loopIteration prev file inputs w).2.2 = (runCycle prev inputs).notified)
      ∧ (∀ (st : StateMap) (file : Option StateMap), save_state st file .ioError = file) :=
  ⟨⟨rfl, rfl, fun _ => rfl⟩, fun _ _ _ _ => ⟨rfl, rfl⟩, fun _ _ => rfl⟩

/-- C9: the notifier posts `\x7bembeds: [embed]\x7d` where the embed's title
falls back to the generic `"Produit \x7basin\x7d"` label when the extracted
title is absent (or empty, by Python truthiness), the url is the canonical
`https://www.amazon.fr/dp/\x7basin\x7d`, the description states
sold-by-Amazon plus the formatted price with the `"non lu"` fallback literal
when the price is absent, and the thumbnail is present exactly for a
non-empty extracted image URL. -/
theorem notifier_payload_shape (asin t u : String) (ti img : Option String)
    (p : Option ℚ) (q : ℚ) (ht : t ≠ "") (hu : u ≠ "") :
    notifier_discord asin ti img p = ⟨[notifier_embed asin ti img p]⟩
      ∧ (notifier_embed asin ti img p).url = "https://www.amazon.fr/dp/" ++ asin
      ∧ (notifier_embed asin none img p).title = "Produit " ++ asin
      ∧ (notifier_embed asin (some "") img p).title = "Produit " ++ asin
      ∧ (notifier_embed asin (some t) img p).title = t
      ∧ (notifier_embed asin ti img none).description
          = "Vendu/expédié par Amazon\nPrix : non lu"
      ∧ (notifier_embed asin ti img (some q)).description
          = "Vendu/expédié par Amazon\nPrix : " ++ format2f q ++ " €"
      ∧ (notifier_embed asin ti none p).thumbnail = none
      ∧ (notifier_embed asin ti (some u) p).thumbnail = some u := by
  refine ⟨rfl, rfl, rfl, rfl, ?_, rfl, ?_, rfl, ?_⟩
  · simp [notifier_embed, ht]
  · simp [notifier_embed, String.append_assoc]
  · simp [notifier_embed, hu]

/-- C9, witness at concrete snapshot fields. -/
theorem notifier_payload_shape_witness :
    notifier_discord "X1" (some "PS5") (some "https://i.img") (some 5)
        = ⟨[notifier_embed "X1" (some "PS5") (some "https://i.img") (some 5)]⟩
      ∧ (notifier_embed "X1" (some "PS5") (some "https://i.img") (some 5)).url
          = "https://www.amazon.fr/dp/" ++ "X1"
      ∧ (notifier_embed "X1" none (some "https://i.img") (some 5)).title
          = "Produit " ++ "X1"
      ∧ (notifier_embed "X1" (some "") (some "https://i.img") (some 5)).title
          = "Produit " ++ "X1"
      ∧ (notifier_embed "X1" (some "PS5") (some "https://i.img") (some 5)).title = "PS5"
      ∧ (notifier_embed "X1" (some "PS5") (some "https://i.img") none).description
          = "Vendu/expédié par Amazon\nPrix : non lu"
      ∧ (notifier_embed "X1" (some "PS5") (some "https://i.img") (some 5)).description
          = "Vendu/expédié par Amazon\nPrix : " ++ format2f 5 ++ " €"
      ∧ (notifier_embed "X1" (some "PS5") none (some 5)).thumbnail = none
      ∧ (notifier_embed "X1" (some "PS5") (some "https://i.img") (some 5)).thumbnail
          = some "https://i.img" :=
  notifier_payload_shape "X1" "PS5" "https://i.img" (some "PS5") (some "https://i.img")
    (some 5) 5 (by decide) (by decide)

/-- C10: no operation removes a state entry — every key present at startup
is still present after any sequence of cycles; any key present after those
cycles was a startup key or the identifier of a processed step; and a
successful save writes the full current mapping wholesale. -/
theorem state_keys_monotone (prev : StateMap) (cycles : List (List StepInput))
    (k : String) :
    ((dictGet prev k).isSome = true →
      (dictGet (runCycles prev cycles) k).isSome = true)
      ∧ ((dictGet (runCycles prev cycles) k).isSome = true →
          (dictGet prev k).isSome = true ∨ ∃ c ∈ cycles, ∃ inp ∈ c, inp.asin = k)
      ∧ (∀ (st : StateMap) (file : Option StateMap), save_state st file .ok = some st) := by
  refine ⟨?_, ?_, fun st file => rfl⟩
  · induction cycles generalizing prev with
    | nil => exact fun hx => hx
    | cons c cs ih =>
      intro hx
      exact ih _ ((dictGet_isSome_runCycleFrom c ⟨prev, false, []⟩ k).1 hx)
  · induction cycles generalizing prev with
    | nil => exact fun hx => Or.inl hx
    | cons c cs ih =>
      intro hx
      rcases ih _ hx with hy | ⟨c2, hc2, hrest⟩
      · rcases (dictGet_isSome_runCycleFrom c ⟨prev, false, []⟩ k).2 hy with hz | ⟨i, hi, hik⟩
        · exact Or.inl hz
        · exact Or.inr ⟨c, List.mem_cons_self _ _, i, hi, hik⟩
      · exact Or.inr ⟨c2, List.mem_cons_of_mem _ hc2, hrest⟩

/-- C10, witness: a startup key survives a cycle that processes a different
identifier. -/
theorem state_keys_monotone_witness :
    (dictGet (runCycles [("OLD", true)]
        [[⟨"X1", .page inStockHtml, true⟩]]) "OLD").isSome = true :=
  (state_keys_monotone [("OLD", true)] [[⟨"X1", .page inStockHtml, true⟩]] "OLD").1
    (by decide)

end Pokewatch
